import Mathlib

/-!
Verification of the configuration-driven object registry of RLHive
(`hive/utils/registry.py`), as a shallow embedding in Lean 4.

The embedding follows the Python source line by line:

* Python dicts (insertion ordered, string keyed) are association lists
  `List (String × α)`; `assocGet` is `d[k]`, `assocSet` is `d[k] = v`
  (replace in place, else append), `assocUpdate` is `d.update(other)`.
* Python values flowing through a configuration are the inductive `Value`.
* Exceptions are modelled by `Except RegError`; the constructors of
  `RegError` record which concrete Python exception the source raises.
* The process-wide CLI override set is a list of (flag destination, raw
  text) pairs; `cliLookup` models what `argparse.parse_known_args` yields
  for one declared optional flag (last occurrence wins, absent gives
  `None`); unrecognized flags are simply never looked up, which models
  `parse_known_args` ignoring them.
* The dynamically installed getter `registry.get_<family>` is `get_family`,
  indexed by the family's `type_name` string and by a fuel bound that
  stands for Python's unbounded recursion; every claim is proved for every
  sufficient fuel.
* `inspect.Parameter` objects and Python type objects, which the source
  compares against each other in `get_parsed_args`, live in `PyObj`.

No definition below is recursive over `Value`; the only recursion is the
fuel-indexed resolution, so everything computes by `rfl`/`decide`.
-/

namespace RLHive

/-! ## Association lists: Python dict operations -/

/-- Python `d[k]` on a string-keyed dict (first binding wins; dicts built by
the code below never carry duplicate keys). -/
def assocGet {α : Type} (l : List (String × α)) (k : String) : Option α :=
  match l with
  | [] => none
  | (k2, v) :: rest => if k2 = k then some v else assocGet rest k

/-- Python `d[k] = v`: replace the binding in place keeping its position,
else append (insertion order semantics of Python dicts). -/
def assocSet {α : Type} (l : List (String × α)) (k : String) (v : α) :
    List (String × α) :=
  match l with
  | [] => [(k, v)]
  | (k2, v2) :: rest =>
    if k2 = k then (k2, v) :: rest else (k2, v2) :: assocSet rest k v

/-- Python `d.update(new)`: fold `assocSet` over the new bindings. -/
def assocUpdate {α : Type} (l new : List (String × α)) : List (String × α) :=
  new.foldl (fun acc kv => assocSet acc kv.1 kv.2) l

/-! ## Values -/

/-- Python values that flow through configuration fragments: scalars,
dicts, lists, and constructed instances.  `vObj tn tag fields` models the
object produced by invoking the registered constructor `tag` of the family
whose capability has `type_name()` = `tn`, with final keyword arguments
`fields`. -/
inductive Value where
  | vNone
  | vInt (n : Int)
  /-- A parsed float, carried exactly as the fraction `num / den` with
  `den` the power of ten of the written fractional part (floats only ever
  arise here as parses of small decimal literals, so an exact fraction is
  a faithful carrier). -/
  | vFloat (num : Int) (den : Nat)
  | vBool (b : Bool)
  | vStr (s : String)
  | vList (items : List Value)
  | vDict (entries : List (String × Value))
  | vObj (typeName : String) (tag : String) (fields : List (String × Value))

/-! ## Constructor signatures and Python runtime objects -/

/-- The primitive Python type objects the source mentions. -/
inductive PyType where
  | pyInt
  | pyBool
  | pyStr
  | pyFloat
deriving DecidableEq

/-- The declared type of a constructor parameter, as
`inspect.Parameter.annotation` exposes it: a class subclassing
`Registrable` (identified by its `type_name()`), a primitive type object,
or no usable annotation. -/
inductive Ann where
  | registrable (typeName : String)
  | pyType (t : PyType)
  | noAnn
deriving DecidableEq

/-- One entry of `inspect.signature(ctor).parameters`. -/
structure Param where
  name : String
  ann : Ann
deriving DecidableEq

/-- A registered constructor: its declared signature, the `type_name()` of
the capability its instances carry, and an identity tag naming the
concrete class.  Invoking it with final kwargs `kw` produces
`Value.vObj typeName tag kw`. -/
structure Ctor where
  typeName : String
  tag : String
  params : List Param
deriving DecidableEq

/-- A Python runtime object that can appear as a value of the `arguments`
dict handed to `get_parsed_args`: either a type object or an
`inspect.Parameter` object.  The source's `get_callable_parsed_args` stores
Parameter objects (it omits `.annotation`), and `get_parsed_args` then
compares these against type objects with `in [int, bool, str, float]`. -/
inductive PyObj where
  | typeObj (t : PyType)
  | paramObj (p : Param)
deriving DecidableEq

/-- The literal list `[int, bool, str, float]` from get_parsed_args. -/
def primTypeObjs : List PyObj :=
  [PyObj.typeObj PyType.pyInt, PyObj.typeObj PyType.pyBool,
   PyObj.typeObj PyType.pyStr, PyObj.typeObj PyType.pyFloat]

/-! ## Errors -/

/-- The exceptions the resolution path can raise.  Each constructor
records the concrete Python exception class of the corresponding `raise`
site; the spec's error taxonomy names these by role. -/
inductive RegError where
  /-- Modelling artifact: recursion budget exhausted (never arises for the
  fuel bounds used in the theorems below). -/
  | outOfFuel
  /-- `AttributeError`: `registry.get_<family>` was never installed. -/
  | attrError (typeName : String)
  /-- `KeyError`: fragment missing the key (the spec's Structural Error). -/
  | keyError (key : String)
  /-- `TypeError`: indexing or updating a value of the wrong shape. -/
  | typeError (msg : String)
  /-- The `raise ValueError(f-string of name + " class not found")` for an
  unknown variant: the spec taxonomy's Lookup Error, carrying the
  offending variant name. -/
  | lookupError (variantName : Value)
  /-- `ValueError` from coercing a CLI value with int()/float(). -/
  | valueError (raw : String)

/-! ## The process-wide CLI override set and argparse -/

/-- The process-wide override set: `(flag destination, raw text)` pairs in
command-line order.  A destination is the flag name without the leading
dashes, e.g. `agent.qnet.x`. -/
abbrev CLI := List (String × String)

/-- What `argparse.parse_known_args` yields for one declared optional flag:
the raw text of its last occurrence, or none when the flag was not
supplied.  Flags not declared in the current parser are never looked up,
modelling that `parse_known_args` silently ignores them. -/
def cliLookup (cli : CLI) (flag : String) : Option String :=
  ((cli.filter (fun p => p.1 == flag)).getLast?).map (fun p => p.2)

/-- The `prefix = "" if prefix is None else prefix + "."` idiom shared by
`get_parsed_args` and `construct_objects`. -/
def prefixDot : Option String → String
  | none => ""
  | some p => p ++ "."

/-- Python `key.startswith(pre)`. -/
def startsWithPfx (key pre : String) : Bool :=
  pre.data.isPrefixOf key.data

/-- The comprehension key `key[len(prefix):] if key.startswith(prefix) else
key` (Python slices strings by characters). -/
def stripPfx (key pre : String) : String :=
  if startsWithPfx key pre then String.mk (key.data.drop pre.data.length)
  else key

/-! ## Scalar parsers: int()/bool()/str()/float() and yaml.safe_load -/

/-- Numeric value of a list of decimal digit characters. -/
def digitsToNat (l : List Char) : Nat :=
  l.foldl (fun acc c => acc * 10 + (c.toNat - ('0').toNat)) 0

/-- Python `s.split(".")` on a character list, splitting at every dot. -/
def splitOnDot (l : List Char) : List (List Char) :=
  match l with
  | [] => [[]]
  | c :: rest =>
    let r := splitOnDot rest
    if c = '.' then [] :: r
    else
      match r with
      | [] => [[c]]
      | h :: t => (c :: h) :: t

/-- Python `int(s)` and the YAML plain-scalar integer rule: an optional
minus sign followed by decimal digits. -/
def parseIntLit (s : String) : Option Int :=
  let neg := startsWithPfx s "-"
  let body := if neg then s.data.drop 1 else s.data
  if body.length > 0 && body.all Char.isDigit then
    some (if neg then -(Int.ofNat (digitsToNat body)) else Int.ofNat (digitsToNat body))
  else none

/-- Decimal literal with a fractional part: the parse rule shared by
Python `float(s)` and the YAML float rule for the plain scalars used here.
Returns the exact fraction (numerator, power-of-ten denominator). -/
def parseFloatLit (s : String) : Option (Int × Nat) :=
  let neg := startsWithPfx s "-"
  let body := if neg then s.data.drop 1 else s.data
  match splitOnDot body with
  | [a, b] =>
    if a.length > 0 && a.all Char.isDigit && b.length > 0 && b.all Char.isDigit then
      let num : Int := Int.ofNat (digitsToNat a * 10 ^ b.length + digitsToNat b)
      some (if neg then -num else num, 10 ^ b.length)
    else none
  | _ => none

/-- Calling a primitive type object on the raw flag text, as
`expected_type(parsed_args[argument])` would: `int(s)` and `float(s)` parse
or raise ValueError, `bool(s)` is string truthiness, `str(s)` is the
identity.  Calling a Parameter object would raise TypeError (that branch is
unreachable under the membership guard). -/
def pyCallPrimitive (t : PyObj) (raw : String) : Except RegError Value :=
  match t with
  | PyObj.typeObj PyType.pyInt =>
    match parseIntLit raw with
    | some n => Except.ok (Value.vInt n)
    | none => Except.error (RegError.valueError raw)
  | PyObj.typeObj PyType.pyBool => Except.ok (Value.vBool (raw != ""))
  | PyObj.typeObj PyType.pyStr => Except.ok (Value.vStr raw)
  | PyObj.typeObj PyType.pyFloat =>
    match parseFloatLit raw with
    | some q => Except.ok (Value.vFloat q.1 q.2)
    | none => Except.error (RegError.valueError raw)
  | PyObj.paramObj _ => Except.error (RegError.typeError "Parameter object is not callable")

/-- Modelled behaviour of the external library call `yaml.safe_load` on the
plain scalars that reach it here: integers, decimal floats, booleans and
nulls resolve to their typed values, anything else stays a string. -/
def yaml_safe_load (s : String) : Value :=
  match parseIntLit s with
  | some n => Value.vInt n
  | none =>
    match parseFloatLit s with
    | some q => Value.vFloat q.1 q.2
    | none =>
      if s = "true" || s = "True" then Value.vBool true
      else if s = "false" || s = "False" then Value.vBool false
      else if s = "null" || s = "~" || s = "" then Value.vNone
      else Value.vStr s

/-! ## The Argument Resolver: get_parsed_args / get_callable_parsed_args -/

/-- One iteration of the final loop of `get_parsed_args`: look the stripped
key up in `arguments`, test the looked-up object against
`[int, bool, str, float]`, and coerce the raw text accordingly.  The
looked-up object is whatever the caller stored there; through
`get_callable_parsed_args` it is always an `inspect.Parameter` object, for
which the membership test is False and the yaml branch runs. -/
def coerceArg (arguments : List (String × PyObj)) (kv : String × String) :
    Except RegError (String × Value) :=
  match assocGet arguments kv.1 with
  | none => Except.error (RegError.keyError kv.1)
  | some expected_type =>
    if expected_type ∈ primTypeObjs then
      match pyCallPrimitive expected_type kv.2 with
      | Except.error e => Except.error e
      | Except.ok v => Except.ok (kv.1, v)
    else Except.ok (kv.1, yaml_safe_load kv.2)

/-- Sequential effectful map: the Python for-loop building the result dict,
aborting at the first raised exception. -/
def mapMExcept {α β : Type} (f : α → Except RegError β) :
    List α → Except RegError (List β)
  | [] => Except.ok []
  | a :: rest =>
    match f a with
    | Except.error e => Except.error e
    | Except.ok b =>
      match mapMExcept f rest with
      | Except.error e => Except.error e
      | Except.ok bs => Except.ok (b :: bs)

/-- `get_parsed_args(arguments, prefix)` from the source: declare one
optional flag per argument named `prefix + "." + argument`, read the
process-wide override set, drop unsupplied flags, strip the prefix from the
supplied ones, then coerce each value. -/
def get_parsed_args (cli : CLI) (arguments : List (String × PyObj))
    (pre : Option String) : Except RegError (List (String × Value)) :=
  let pfx := prefixDot pre
  let parsedRaw := arguments.map (fun a => (pfx ++ a.1, cliLookup cli (pfx ++ a.1)))
  let supplied := parsedRaw.filterMap (fun kv =>
    match kv.2 with
    | none => none
    | some v => some (stripPfx kv.1 pfx, v))
  mapMExcept (coerceArg arguments) supplied

/-- `get_callable_parsed_args(callable, prefix)`: build the `arguments`
dict from the callable's signature, skipping `self`; its values are the
`inspect.Parameter` objects themselves (the source omits `.annotation`). -/
def get_callable_parsed_args (cli : CLI) (object_class : Ctor)
    (pre : Option String) : Except RegError (List (String × Value)) :=
  let arguments : List (String × PyObj) :=
    (object_class.params.filter (fun p => p.name != "self")).map
      (fun p => (p.name, PyObj.paramObj p))
  get_parsed_args cli arguments pre

/-! ## The Registry -/

/-- One family's slot in `Registry._registry`, together with the state the
dynamically installed getter closed over: `closureCtor` is the
`constructor` argument of the `register` call that first saw the family
(the call that defined the getter), and `variants` is the live variant
table `{variant name: constructor}`. -/
structure FamilyEntry where
  closureCtor : Ctor
  variants : List (String × Ctor)

/-- `Registry._registry`, keyed by `type.type_name()`. -/
abbrev Registry := List (String × FamilyEntry)

/-- `Registry.register(name, constructor, type)`: on first sight of the
family create its (empty) table and install the getter, whose closure
captures this call's `constructor`; then store the variant (last write
wins).  The `issubclass(type, Registrable)` guard is not modelled: every
family marker in this development is Registrable. -/
def Registry.register (reg : Registry) (name : String) (constructor : Ctor)
    (tn : String) : Registry :=
  match assocGet reg tn with
  | none => reg ++ [(tn, FamilyEntry.mk constructor [(name, constructor)])]
  | some fam =>
    assocSet reg tn (FamilyEntry.mk fam.closureCtor (assocSet fam.variants name constructor))

/-- `Registry.register_all(base_class, class_dict)`. -/
def Registry.register_all (reg : Registry) (tn : String)
    (classDict : List (String × Ctor)) : Registry :=
  classDict.foldl (fun r kv => Registry.register r kv.1 kv.2 tn) reg

/-- `isinstance(object_or_config, type)` for the family marker whose
`type_name()` is `tn`: true exactly for constructed instances of that
family's capability. -/
def isinstanceOf (v : Value) (tn : String) : Bool :=
  match v with
  | Value.vObj t _ _ => t == tn
  | _ => false

/-! ## Resolution: the getter and the Recursive Construction Engine

The getter raises by returning `Except.error`; the value `frag` of a
`GetOut` is the configuration fragment as the caller sees it after the
call (Python mutates it in place), and `calls` records every constructor
invocation `(family type_name, variant name)` the resolution performed, in
evaluation order. -/

/-- Result of one `registry.get_<family>(object_or_config, prefix)` call. -/
structure GetOut where
  res : Except RegError Value
  frag : Value
  calls : List (String × String)

/-- Result of one `construct_objects(object_constructor, config, prefix)`
call: the config dict after its in-place mutations, the exception that
aborted the loop if any, and the constructor invocations performed. -/
structure ConsOut where
  config : List (String × Value)
  err : Option RegError
  calls : List (String × String)

/-- The `for argument in signature.parameters` loop of `construct_objects`:
for each declared parameter present in the config whose annotation is a
Registrable subclass, replace `config[argument]` by the result of the
sub-family's getter at prefix `pfx + argument`.  `resolveSub` stands for
`registry.__getattribute__("get_" + type_name)`; a raised exception stops
the loop, with the slot still aliasing the (possibly mutated) sub-fragment. -/
def constructLoop (resolveSub : String → Value → String → GetOut) (pfx : String) :
    List Param → List (String × Value) → ConsOut
  | [], config => ConsOut.mk config none []
  | p :: rest, config =>
    match assocGet config p.name with
    | none => constructLoop resolveSub pfx rest config
    | some v =>
      match p.ann with
      | Ann.registrable g =>
        let out := resolveSub g v (pfx ++ p.name)
        match out.res with
        | Except.error e => ConsOut.mk (assocSet config p.name out.frag) (some e) out.calls
        | Except.ok v2 =>
          let r := constructLoop resolveSub pfx rest (assocSet config p.name v2)
          ConsOut.mk r.config r.err (out.calls ++ r.calls)
      | _ => constructLoop resolveSub pfx rest config

/-- `construct_objects(object_constructor, config, prefix)` from the
source.  Only the constructor's declared parameter list is consulted
(`inspect.signature`), so the function takes `params`; the global
`registry` the source reaches for is supplied as `resolveSub`. -/
def construct_objects (resolveSub : String → Value → String → GetOut)
    (params : List Param) (config : List (String × Value)) (pre : Option String) :
    ConsOut :=
  constructLoop resolveSub (prefixDot pre) params config

/-- The dynamically installed getter `registry.get_<tn>(object_or_config,
prefix)`, fuel-indexed (fuel stands for Python's recursion depth; claims
hold for every sufficient fuel).  Follows the source exactly: dispatch to
the family's entry (AttributeError when the getter was never installed),
pass `None` through, pass instances of the capability through, extract
`name` then `kwargs` (KeyError when missing, TypeError when the fragment is
not a dict), look the variant up (the ValueError naming the variant when
absent), compute the CLI overrides from the looked-up class's signature,
merge them into the kwargs dict in place, run `construct_objects` with the
closure's captured `constructor` (the first constructor ever registered
for this family — not the looked-up `object_class`), and finally invoke
`object_class` on the resulting kwargs. -/
def get_family (reg : Registry) (cli : CLI) :
    Nat → String → Value → Option String → GetOut
  | 0, _, frag, _ => GetOut.mk (Except.error RegError.outOfFuel) frag []
  | fuel + 1, tn, frag, pre =>
    match assocGet reg tn with
    | none => GetOut.mk (Except.error (RegError.attrError tn)) frag []
    | some fam =>
      match frag with
      | Value.vNone => GetOut.mk (Except.ok Value.vNone) Value.vNone []
      | _ =>
        if isinstanceOf frag tn then GetOut.mk (Except.ok frag) frag []
        else
          match frag with
          | Value.vDict entries =>
            match assocGet entries "name" with
            | none => GetOut.mk (Except.error (RegError.keyError "name")) frag []
            | some nameV =>
              match assocGet entries "kwargs" with
              | none => GetOut.mk (Except.error (RegError.keyError "kwargs")) frag []
              | some kwargsV =>
                match nameV with
                | Value.vStr variantName =>
                  match assocGet fam.variants variantName with
                  | none =>
                    GetOut.mk (Except.error (RegError.lookupError (Value.vStr variantName))) frag []
                  | some object_class =>
                    match get_callable_parsed_args cli object_class pre with
                    | Except.error e => GetOut.mk (Except.error e) frag []
                    | Except.ok parsed_args =>
                      match kwargsV with
                      | Value.vDict kwargs0 =>
                        let kwargs1 := assocUpdate kwargs0 parsed_args
                        let co := construct_objects
                          (fun g v pfxStr => get_family reg cli fuel g v (some pfxStr))
                          fam.closureCtor.params kwargs1 pre
                        let fragAfter := Value.vDict (assocSet entries "kwargs" (Value.vDict co.config))
                        match co.err with
                        | some e => GetOut.mk (Except.error e) fragAfter co.calls
                        | none =>
                          GetOut.mk
                            (Except.ok (Value.vObj object_class.typeName object_class.tag co.config))
                            fragAfter (co.calls ++ [(tn, variantName)])
                      | _ =>
                        GetOut.mk (Except.error (RegError.typeError "kwargs object has no update")) frag []
                | _ => GetOut.mk (Except.error (RegError.lookupError nameV)) frag []
          | _ => GetOut.mk (Except.error (RegError.typeError "fragment is not subscriptable")) frag []

/-! ## The Callable Wrapper -/

/-- `CallableType`: wraps a plain invocable `fn` (class, function or
factory).  An invocable takes positional and keyword arguments and
produces a value. -/
structure CallableType where
  fn : List Value → List (String × Value) → Value

/-- `CallableType.type_name()` returns the literal string "callable". -/
def CallableType.type_name : String := "callable"

/-- The object `functools.partial(fn, *args, **kwargs)`: an invocable with
some arguments captured, waiting for the remainder. -/
structure PendingCall where
  fn : List Value → List (String × Value) → Value
  capturedArgs : List Value
  capturedKwargs : List (String × Value)

/-- `CallableType.__call__(*args, **kwargs)` from the source: returns
`functools.partial(self._fn, *args, **kwargs)`. -/
def CallableType.call (c : CallableType) (args : List Value)
    (kwargs : List (String × Value)) : PendingCall :=
  PendingCall.mk c.fn args kwargs

/-- Modelled behaviour of the external `functools.partial` object when
invoked: captured positional arguments are prepended, keyword arguments
are merged with the later call's keywords taking precedence, and the
wrapped invocable runs on the combined arguments. -/
def PendingCall.invoke (p : PendingCall) (args2 : List Value)
    (kwargs2 : List (String × Value)) : Value :=
  p.fn (p.capturedArgs ++ args2) (assocUpdate p.capturedKwargs kwargs2)

/-! ## Basic laws of the dict operations -/

theorem assocGet_assocSet_self {α : Type} (l : List (String × α)) (k : String) (v : α) :
    assocGet (assocSet l k v) k = some v := by
  induction l with
  | nil => simp [assocGet, assocSet]
  | cons kv rest ih =>
    by_cases h : kv.1 = k
    · simp [assocGet, assocSet, h]
    · simp [assocGet, assocSet, h, ih]

theorem assocGet_assocSet_ne {α : Type} (l : List (String × α)) (k k2 : String) (v : α)
    (h : k ≠ k2) : assocGet (assocSet l k v) k2 = assocGet l k2 := by
  induction l with
  | nil => simp [assocGet, assocSet, h]
  | cons kv rest ih =>
    by_cases hk : kv.1 = k
    · simp [assocGet, assocSet, hk, h]
    · by_cases hk2 : kv.1 = k2
      · have h2 : ¬(k2 = k) := fun he => h he.symm
        simp [assocGet, assocSet, hk, hk2, h2]
      · simp [assocGet, assocSet, hk, hk2, ih]

theorem assocGet_assocUpdate_notMem {α : Type} (l new : List (String × α)) (x : String)
    (h : x ∉ new.map Prod.fst) :
    assocGet (assocUpdate l new) x = assocGet l x := by
  induction new generalizing l with
  | nil => rfl
  | cons kv rest ih =>
    have hne : kv.1 ≠ x := by
      intro he; exact h (by simp [he])
    have hrest : x ∉ rest.map Prod.fst := by
      intro hm; exact h (by simp [hm])
    calc assocGet (assocUpdate l (kv :: rest)) x
        = assocGet (assocUpdate (assocSet l kv.1 kv.2) rest) x := rfl
      _ = assocGet (assocSet l kv.1 kv.2) x := ih _ hrest
      _ = assocGet l x := assocGet_assocSet_ne _ _ _ _ hne

theorem assocGet_assocUpdate_const {α : Type} (l new : List (String × α)) (x : String) (w : α)
    (hmem : (x, w) ∈ new) (hall : ∀ v, (x, v) ∈ new → v = w) :
    assocGet (assocUpdate l new) x = some w := by
  induction new generalizing l with
  | nil => cases hmem
  | cons kv rest ih =>
    have hstep : assocGet (assocUpdate l (kv :: rest)) x
        = assocGet (assocUpdate (assocSet l kv.1 kv.2) rest) x := rfl
    by_cases hr : x ∈ rest.map Prod.fst
    · rw [List.mem_map] at hr
      obtain ⟨⟨ks, vs⟩, hks, hk1⟩ := hr
      simp only [] at hk1
      subst hk1
      have hvs : vs = w := hall vs (List.mem_cons_of_mem _ hks)
      subst hvs
      rw [hstep]
      exact ih _ hks (fun v hv => hall v (List.mem_cons_of_mem _ hv))
    · have hkx : kv = (x, w) := by
        rcases List.mem_cons.mp hmem with he | hm
        · exact he.symm
        · exact absurd (List.mem_map.mpr ⟨(x, w), hm, rfl⟩) hr
      rw [hstep, assocGet_assocUpdate_notMem _ _ _ hr, hkx]
      exact assocGet_assocSet_self _ _ _

/-! ## String helpers -/

theorem data_append (a b : String) : (a ++ b).data = a.data ++ b.data := by
  cases a; cases b; rfl

theorem mk_data (s : String) : String.mk s.data = s := by
  cases s; rfl

theorem isPrefixOf_append_self (l t : List Char) : l.isPrefixOf (l ++ t) = true := by
  induction l with
  | nil => cases t <;> rfl
  | cons c rest ih => simp [List.isPrefixOf, ih]

theorem drop_length_append (l t : List Char) : (l ++ t).drop l.length = t := by
  induction l with
  | nil => rfl
  | cons c rest ih => simp

theorem stripPfx_append (pre s : String) : stripPfx (pre ++ s) pre = s := by
  unfold stripPfx startsWithPfx
  have h : pre.data.isPrefixOf (pre ++ s).data = true := by
    rw [data_append]; exact isPrefixOf_append_self _ _
  rw [if_pos h, data_append, drop_length_append, mk_data]

/-! ## The Argument Resolver pipeline, characterized -/

/-- What `get_callable_parsed_args` actually produces (proved below): one
entry per declared non-self parameter whose scoped flag was supplied,
carrying the yaml-parsed value of the raw flag text. -/
def cliOverrides (cli : CLI) (c : Ctor) (pre : Option String) : List (String × Value) :=
  (c.params.filter (fun p => p.name != "self")).filterMap
    (fun p => (cliLookup cli (prefixDot pre ++ p.name)).map
      (fun raw => (p.name, yaml_safe_load raw)))

theorem filterMap_congr_fun {α β : Type} (l : List α) (f g : α → Option β)
    (h : ∀ a ∈ l, f a = g a) : l.filterMap f = l.filterMap g := by
  induction l with
  | nil => rfl
  | cons a rest ih =>
    rw [List.filterMap_cons, List.filterMap_cons, h a (by simp),
      ih (fun b hb => h b (by simp [hb]))]

theorem coerceArg_paramObj (arguments : List (String × PyObj)) (kv : String × String)
    (p : Param) (h : assocGet arguments kv.1 = some (PyObj.paramObj p)) :
    coerceArg arguments kv = Except.ok (kv.1, yaml_safe_load kv.2) := by
  unfold coerceArg
  rw [h]
  simp [primTypeObjs]

theorem assocGet_paramMap_mem (ps : List Param) (p : Param) (hp : p ∈ ps) :
    ∃ q, assocGet (ps.map (fun r => (r.name, PyObj.paramObj r))) p.name
      = some (PyObj.paramObj q) := by
  induction ps with
  | nil => cases hp
  | cons r rest ih =>
    by_cases h : r.name = p.name
    · exact ⟨r, by simp [assocGet, h]⟩
    · rcases List.mem_cons.mp hp with he | hm
      · exact absurd (congrArg Param.name he.symm) h
      · simpa [assocGet, h] using ih hm

theorem mapM_coerce_yaml (arguments : List (String × PyObj))
    (supplied : List (String × String))
    (h : ∀ kv ∈ supplied, ∃ q, assocGet arguments kv.1 = some (PyObj.paramObj q)) :
    mapMExcept (coerceArg arguments) supplied
      = Except.ok (supplied.map (fun kv => (kv.1, yaml_safe_load kv.2))) := by
  induction supplied with
  | nil => rfl
  | cons kv rest ih =>
    obtain ⟨q, hq⟩ := h kv (by simp)
    rw [mapMExcept, coerceArg_paramObj arguments kv q hq,
      ih (fun kv2 hm => h kv2 (by simp [hm]))]
    rfl

theorem supplied_eq (cli : CLI) (pfx : String) (ps : List Param) :
    ((ps.map (fun p => (p.name, PyObj.paramObj p))).map
        (fun a => (pfx ++ a.1, cliLookup cli (pfx ++ a.1)))).filterMap
      (fun kv => match kv.2 with
        | none => none
        | some v => some (stripPfx kv.1 pfx, v))
    = ps.filterMap (fun p => (cliLookup cli (pfx ++ p.name)).map
        (fun raw => (p.name, raw))) := by
  induction ps with
  | nil => rfl
  | cons p rest ih =>
    cases h : cliLookup cli (pfx ++ p.name) with
    | none => simpa [h] using ih
    | some raw => simpa [h, stripPfx_append pfx p.name] using ih

/-- The Argument Resolver never raises when reached through
`get_callable_parsed_args` (every stored object is a Parameter, so the
primitive branch never runs), and its output is exactly `cliOverrides`:
the yaml-parsed values of the supplied scoped flags. -/
theorem get_callable_parsed_args_eq (cli : CLI) (c : Ctor) (pre : Option String) :
    get_callable_parsed_args cli c pre = Except.ok (cliOverrides cli c pre) := by
  unfold get_callable_parsed_args get_parsed_args cliOverrides
  simp only []
  rw [supplied_eq cli (prefixDot pre) (c.params.filter (fun p => p.name != "self"))]
  rw [mapM_coerce_yaml]
  · rw [List.map_filterMap]
    refine congrArg Except.ok (filterMap_congr_fun _ _ _ (fun p hp => ?_))
    cases h : cliLookup cli (prefixDot pre ++ p.name) with
    | none => rfl
    | some raw => rfl
  · intro kv hkv
    rw [List.mem_filterMap] at hkv
    obtain ⟨p, hp, hf⟩ := hkv
    cases hl : cliLookup cli (prefixDot pre ++ p.name) with
    | none => rw [hl] at hf; cases hf
    | some raw =>
      rw [hl] at hf
      have hkv1 : kv.1 = p.name := by
        cases hf; rfl
      rw [hkv1]
      exact assocGet_paramMap_mem _ p hp

/-! ## Further helper lemmas -/

theorem map_congr_fun {α β : Type} (l : List α) (f g : α → β)
    (h : ∀ a ∈ l, f a = g a) : l.map f = l.map g := by
  induction l with
  | nil => rfl
  | cons a rest ih =>
    rw [List.map_cons, List.map_cons, h a (by simp),
      ih (fun b hb => h b (by simp [hb]))]

/-- The construction loop leaves a config key untouched when no declared
parameter of that name has a Registrable annotation. -/
theorem constructLoop_preserves (resolveSub : String → Value → String → GetOut)
    (pfx : String) (params : List Param) (x : String) :
    ∀ config : List (String × Value),
      (∀ p ∈ params, p.name = x → ∀ g, p.ann ≠ Ann.registrable g) →
      assocGet (constructLoop resolveSub pfx params config).config x
        = assocGet config x := by
  induction params with
  | nil => intro config h; rfl
  | cons p rest ih =>
    intro config h
    have hrest : ∀ q ∈ rest, q.name = x → ∀ g, q.ann ≠ Ann.registrable g :=
      fun q hq => h q (List.mem_cons_of_mem _ hq)
    simp only [constructLoop]
    cases hg : assocGet config p.name with
    | none => exact ih config hrest
    | some v =>
      cases hann : p.ann with
      | registrable g =>
        have hpx : p.name ≠ x := fun he => (h p (by simp) he g) hann
        simp only []
        generalize resolveSub g v (pfx ++ p.name) = out
        obtain ⟨res2, frag2, calls2⟩ := out
        cases res2 with
        | error e => exact assocGet_assocSet_ne _ _ _ _ hpx
        | ok v2 =>
          rw [ih _ hrest]
          exact assocGet_assocSet_ne _ _ _ _ hpx
      | pyType t => exact ih config hrest
      | noAnn => exact ih config hrest

theorem cliLookup_cons_ne (k v flag : String) (cli : CLI)
    (h : (k == flag) = false) :
    cliLookup ((k, v) :: cli) flag = cliLookup cli flag := by
  simp [cliLookup, List.filter_cons, h]

/-- Two strings whose data start with different characters differ, even
after appending anything to the second. -/
theorem ne_append_of_head_ne (a b s : String) (c d : Char) (tl tl2 : List Char)
    (ha : a.data = c :: tl) (hb : b.data = d :: tl2) (hcd : c ≠ d) :
    a ≠ b ++ s := by
  intro h
  have h2 := congrArg String.data h
  rw [data_append, ha, hb, List.cons_append] at h2
  injection h2 with h3 h4
  exact hcd h3

theorem coerceArg_key (arguments : List (String × PyObj)) (kv : String × String)
    (r : String × Value) (h : coerceArg arguments kv = Except.ok r) : r.1 = kv.1 := by
  unfold coerceArg at h
  cases hg : assocGet arguments kv.1 with
  | none => rw [hg] at h; cases h
  | some e =>
    simp only [hg] at h
    by_cases hp : e ∈ primTypeObjs
    · rw [if_pos hp] at h
      cases hc : pyCallPrimitive e kv.2 with
      | error er => rw [hc] at h; cases h
      | ok v => rw [hc] at h; cases h; rfl
    · rw [if_neg hp] at h; cases h; rfl

theorem mapMExcept_keys (arguments : List (String × PyObj))
    (supplied : List (String × String)) (out : List (String × Value))
    (h : mapMExcept (coerceArg arguments) supplied = Except.ok out) :
    out.map Prod.fst = supplied.map Prod.fst := by
  induction supplied generalizing out with
  | nil => cases h; rfl
  | cons kv rest ih =>
    rw [mapMExcept] at h
    cases hc : coerceArg arguments kv with
    | error e => rw [hc] at h; cases h
    | ok b =>
      rw [hc] at h
      cases hr : mapMExcept (coerceArg arguments) rest with
      | error e => rw [hr] at h; cases h
      | ok bs =>
        rw [hr] at h
        cases h
        simp [ih bs hr, coerceArg_key arguments kv b hc]

theorem supplied_keys_eq (cli : CLI) (pfx : String)
    (arguments : List (String × PyObj)) :
    ((arguments.map (fun a => (pfx ++ a.1, cliLookup cli (pfx ++ a.1)))).filterMap
        (fun kv => match kv.2 with
          | none => none
          | some v => some (stripPfx kv.1 pfx, v))).map Prod.fst
      = (arguments.filter (fun a => (cliLookup cli (pfx ++ a.1)).isSome)).map Prod.fst := by
  induction arguments with
  | nil => rfl
  | cons a rest ih =>
    cases h : cliLookup cli (pfx ++ a.1) with
    | none => simpa [h] using ih
    | some raw => simpa [h, stripPfx_append] using ih

/-! ## Claim theorems -/

/-- C5: the Callable Wrapper's `type_name()` is the literal string
"callable", and calling the wrapper with part of the arguments returns a
further invocable (the returned `functools.partial`) that captures them
and waits for the remainder; supplying the remainder invokes the wrapped
constructible on all arguments combined — the same outcome as capturing
everything at once, so the wrapper exposes the wrapped thing's calling
convention through its two-stage protocol. -/
theorem c5_callable_wrapper_calling_convention
    (f : List Value → List (String × Value) → Value)
    (xs ys : List Value) (kw kw2 : List (String × Value)) :
    CallableType.type_name = "callable"
    ∧ ((CallableType.mk f).call xs kw).invoke ys kw2
        = f (xs ++ ys) (assocUpdate kw kw2)
    ∧ ((CallableType.mk f).call xs kw).invoke ys kw2
        = ((CallableType.mk f).call (xs ++ ys) (assocUpdate kw kw2)).invoke [] [] := by
  refine ⟨rfl, rfl, ?_⟩
  simp [CallableType.call, PendingCall.invoke, assocUpdate]

/-- C7: for a registered family (its entry present in the registry, hence
its getter installed), resolving the fragment `None` returns `None` for
every prefix and every recursion budget, with no construction, no error,
and no mutation. -/
theorem c7_none_passthrough (reg : Registry) (cli : CLI) (fuel : Nat)
    (tn : String) (fam : FamilyEntry) (pre : Option String)
    (hfam : assocGet reg tn = some fam) :
    get_family reg cli (fuel + 1) tn Value.vNone pre
      = GetOut.mk (Except.ok Value.vNone) Value.vNone [] := by
  simp [get_family, hfam]

/-- Witness for C7: a concrete registered family resolves `None` to
`None`. -/
theorem c7_none_passthrough_witness :
    get_family [("famC7", FamilyEntry.mk (Ctor.mk "famC7" "k" []) [("k", Ctor.mk "famC7" "k" [])])]
        [] 1 "famC7" Value.vNone (some "agent")
      = GetOut.mk (Except.ok Value.vNone) Value.vNone [] :=
  c7_none_passthrough _ [] 0 "famC7"
    (FamilyEntry.mk (Ctor.mk "famC7" "k" []) [("k", Ctor.mk "famC7" "k" [])]) (some "agent") rfl

/-- C9: CLI-override derivation scoped by the prefix "b.sub" is
noninterfering with the flag of a sibling prefix: for any two process-wide
override sets that agree on every flag other than "a.sub.x" — in
particular, one containing the flag `--a.sub.x` and one without it — the
overrides derived for prefix "b.sub" are identical, whatever parameters
are declared. -/
theorem c9_scoping_isolation (arguments : List (String × PyObj))
    (cli1 cli2 : CLI)
    (h : ∀ flag : String, flag ≠ "a.sub.x" → cliLookup cli1 flag = cliLookup cli2 flag) :
    get_parsed_args cli1 arguments (some "b.sub")
      = get_parsed_args cli2 arguments (some "b.sub") := by
  have hflag : ∀ s : String, prefixDot (some "b.sub") ++ s ≠ "a.sub.x" := by
    intro s he
    exact ne_append_of_head_ne "a.sub.x" (prefixDot (some "b.sub")) s 'a' 'b'
      (String.data "a.sub.x").tail (String.data (prefixDot (some "b.sub"))).tail
      rfl rfl (by decide) he.symm
  have hmap : arguments.map (fun a => (prefixDot (some "b.sub") ++ a.1,
        cliLookup cli1 (prefixDot (some "b.sub") ++ a.1)))
      = arguments.map (fun a => (prefixDot (some "b.sub") ++ a.1,
        cliLookup cli2 (prefixDot (some "b.sub") ++ a.1))) :=
    map_congr_fun _ _ _ (fun a _ => by rw [h _ (hflag a.1)])
  simp only [get_parsed_args]
  rw [hmap]

/-- Witness for C9: with the declared parameter `x`, deriving overrides at
prefix "b.sub" gives the same mapping whether or not `--a.sub.x 5` is in
the override set. -/
theorem c9_scoping_isolation_witness :
    get_parsed_args [("a.sub.x", "5"), ("b.sub.x", "1")]
        [("x", PyObj.paramObj (Param.mk "x" Ann.noAnn))] (some "b.sub")
      = get_parsed_args [("b.sub.x", "1")]
        [("x", PyObj.paramObj (Param.mk "x" Ann.noAnn))] (some "b.sub") :=
  c9_scoping_isolation _ _ _
    (fun flag hf => cliLookup_cons_ne "a.sub.x" "5" flag _
      (beq_eq_false_iff_ne.mpr (fun he => hf he.symm)))

/-- C8: on success, the mapping produced by CLI-override derivation for a
constructor's arguments and a prefix has exactly the keys whose scoped
flags were supplied in the process-wide override set, in declaration
order; a parameter whose flag is absent contributes no entry at all. -/
theorem c8_overrides_exactly_supplied (cli : CLI)
    (arguments : List (String × PyObj)) (pre : Option String)
    (out : List (String × Value))
    (h : get_parsed_args cli arguments pre = Except.ok out) :
    out.map Prod.fst
      = (arguments.filter (fun a => (cliLookup cli (prefixDot pre ++ a.1)).isSome)).map Prod.fst
    ∧ ∀ a : String, cliLookup cli (prefixDot pre ++ a) = none → a ∉ out.map Prod.fst := by
  simp only [get_parsed_args] at h
  have h1 := (mapMExcept_keys _ _ _ h).trans (supplied_keys_eq cli (prefixDot pre) arguments)
  refine ⟨h1, ?_⟩
  intro a hnone hmem
  rw [h1] at hmem
  rw [List.mem_map] at hmem
  obtain ⟨p, hp, hpa⟩ := hmem
  rw [List.mem_filter] at hp
  rw [hpa] at hp
  rw [hnone] at hp
  exact absurd hp.2 (by simp)

/-- Witness for C8 at a concrete constructor with parameters `x` and `y`
where only `--p.x` is supplied: the derived mapping has exactly the key
`x`, and `y` is absent. -/
theorem c8_overrides_exactly_supplied_witness :
    ([("x", Value.vInt 1)].map Prod.fst
      = (([("x", PyObj.paramObj (Param.mk "x" Ann.noAnn)),
          ("y", PyObj.paramObj (Param.mk "y" Ann.noAnn))]).filter
          (fun a => (cliLookup [("p.x", "1")] (prefixDot (some "p") ++ a.1)).isSome)).map Prod.fst)
    ∧ ∀ a : String, cliLookup [("p.x", "1")] (prefixDot (some "p") ++ a) = none →
        a ∉ ([("x", Value.vInt 1)].map Prod.fst) :=
  c8_overrides_exactly_supplied [("p.x", "1")]
    [("x", PyObj.paramObj (Param.mk "x" Ann.noAnn)),
     ("y", PyObj.paramObj (Param.mk "y" Ann.noAnn))] (some "p") [("x", Value.vInt 1)] rfl

/-! Concrete setup for C2: a family "test_net" with two variants, A
registered first (so the getter closure captured A's constructor) and B
second, where only B declares a Registrable-typed parameter `opt` of the
family "test_opt". -/

def c2OptCtor : Ctor := Ctor.mk "test_opt" "sgd" []

def c2NetA : Ctor := Ctor.mk "test_net" "A" []

def c2NetB : Ctor := Ctor.mk "test_net" "B" [Param.mk "opt" (Ann.registrable "test_opt")]

def c2Reg : Registry :=
  Registry.register
    (Registry.register (Registry.register [] "A" c2NetA "test_net") "B" c2NetB "test_net")
    "sgd" c2OptCtor "test_opt"

def c2FragSgd : Value :=
  Value.vDict [("name", Value.vStr "sgd"), ("kwargs", Value.vDict [])]

def c2Frag : Value :=
  Value.vDict [("name", Value.vStr "B"), ("kwargs", Value.vDict [("opt", c2FragSgd)])]

/-- C2 fails on the code: the getter passes the closure variable
`constructor` — the constructor of the family's first registration — to
`construct_objects`, not the looked-up `object_class`.  Resolving variant
B therefore runs the engine over A's (empty) parameter list: B's
Registrable-typed parameter `opt` is handed to B's constructor as the raw
nested fragment, unresolved, and no "test_opt" construction happens.  The
third conjunct shows the engine over B's own declared parameters (what the
claim describes) does resolve `opt` via the sub-family's getter. -/
theorem c2_engine_uses_first_registered_signature :
    (get_family c2Reg [] 5 "test_net" c2Frag none).res
      = Except.ok (Value.vObj "test_net" "B" [("opt", c2FragSgd)])
    ∧ (get_family c2Reg [] 5 "test_net" c2Frag none).calls = [("test_net", "B")]
    ∧ (construct_objects (fun g v pfxStr => get_family c2Reg [] 4 g v (some pfxStr))
        c2NetB.params [("opt", c2FragSgd)] none).config
      = [("opt", Value.vObj "test_opt" "sgd" [])] :=
  ⟨rfl, rfl, rfl⟩

/-! Concrete setup for C4: a constructor whose parameter `x` is declared
`str`, with the flag value "3.5" supplied for it. -/

def c4Ctor : Ctor := Ctor.mk "approx" "net" [Param.mk "x" (Ann.pyType PyType.pyStr)]

/-- C4 fails on the code: `get_parsed_args` binds `expected_type` to the
`inspect.Parameter` object stored by `get_callable_parsed_args` (the
source omits `.annotation`), so the membership test against
`[int, bool, str, float]` is always False and every supplied flag value is
yaml-parsed.  For the parameter `x` declared `str`, the flag value "3.5"
comes back as the float 35/10, not as the string "3.5" that the declared
primitive's parse rule would give. -/
theorem c4_flag_not_coerced_by_declared_type :
    get_callable_parsed_args [("x", "3.5")] c4Ctor none
      = Except.ok [("x", Value.vFloat 35 10)]
    ∧ get_callable_parsed_args [("x", "3.5")] c4Ctor none
      ≠ Except.ok [("x", Value.vStr "3.5")] := by
  refine ⟨rfl, ?_⟩
  intro h
  rw [show get_callable_parsed_args [("x", "3.5")] c4Ctor none
      = Except.ok [("x", Value.vFloat 35 10)] from rfl] at h
  injection h with h1
  injection h1 with h2 h3
  injection h2 with h4 h5
  cases h5

/-- C1: resolving a configuration fragment whose `name` matches no
registered variant of the family fails with the lookup failure naming the
offending variant (raised in the source as
`ValueError(name + " class not found")`): the result is that error, no
constructor is invoked (`calls = []`), no instance is produced, and the
fragment is left untouched.  When the resolution happens as a nested
construction of an enclosing `construct_objects` pass, the same error
propagates to that caller. -/
theorem c1_unknown_variant_lookup_error
    (reg : Registry) (cli : CLI) (fuel : Nat) (tn : String) (fam : FamilyEntry)
    (entries : List (String × Value)) (n : String) (kwargsV : Value)
    (pre : Option String) (pn : String) (outerPre : Option String)
    (hfam : assocGet reg tn = some fam)
    (hname : assocGet entries "name" = some (Value.vStr n))
    (hkw : assocGet entries "kwargs" = some kwargsV)
    (hmiss : assocGet fam.variants n = none) :
    (get_family reg cli (fuel + 1) tn (Value.vDict entries) pre).res
        = Except.error (RegError.lookupError (Value.vStr n))
    ∧ (get_family reg cli (fuel + 1) tn (Value.vDict entries) pre).calls = []
    ∧ (get_family reg cli (fuel + 1) tn (Value.vDict entries) pre).frag
        = Value.vDict entries
    ∧ (construct_objects (fun g v pfxStr => get_family reg cli (fuel + 1) g v (some pfxStr))
        [Param.mk pn (Ann.registrable tn)] [(pn, Value.vDict entries)] outerPre).err
        = some (RegError.lookupError (Value.vStr n)) := by
  have hmain : ∀ pre2 : Option String,
      get_family reg cli (fuel + 1) tn (Value.vDict entries) pre2
        = GetOut.mk (Except.error (RegError.lookupError (Value.vStr n)))
            (Value.vDict entries) [] := by
    intro pre2
    simp [get_family, hfam, hname, hkw, hmiss, isinstanceOf]
  refine ⟨by rw [hmain pre], by rw [hmain pre], by rw [hmain pre], ?_⟩
  simp [construct_objects, constructLoop, assocGet, hmain]

def c1Ctor : Ctor := Ctor.mk "famC1" "real" []

def c1Reg : Registry := Registry.register [] "real" c1Ctor "famC1"

/-- Witness for C1: a concrete family with one variant "real", asked for
"does_not_exist". -/
theorem c1_unknown_variant_lookup_error_witness :
    (get_family c1Reg [] 1 "famC1"
        (Value.vDict [("name", Value.vStr "does_not_exist"), ("kwargs", Value.vDict [])])
        none).res
      = Except.error (RegError.lookupError (Value.vStr "does_not_exist"))
    ∧ (get_family c1Reg [] 1 "famC1"
        (Value.vDict [("name", Value.vStr "does_not_exist"), ("kwargs", Value.vDict [])])
        none).calls = []
    ∧ (construct_objects (fun g v pfxStr => get_family c1Reg [] 1 g v (some pfxStr))
        [Param.mk "sub" (Ann.registrable "famC1")]
        [("sub", Value.vDict [("name", Value.vStr "does_not_exist"), ("kwargs", Value.vDict [])])]
        none).err
      = some (RegError.lookupError (Value.vStr "does_not_exist")) := by
  have h := c1_unknown_variant_lookup_error c1Reg [] 0 "famC1"
    (FamilyEntry.mk c1Ctor [("real", c1Ctor)])
    [("name", Value.vStr "does_not_exist"), ("kwargs", Value.vDict [])]
    "does_not_exist" (Value.vDict []) none "sub" none rfl rfl rfl rfl
  exact ⟨h.1, h.2.1, h.2.2.2⟩

/-- C6: a value that is already an instance of the family's capability is
returned unchanged by the getter — same object, no construction, no
mutation — for every prefix and recursion budget; consequently the getter
is idempotent on such values: resolving the result of a resolution returns
the same result. -/
theorem c6_instance_passthrough_idempotence
    (reg : Registry) (cli : CLI) (fuel : Nat) (tn : String) (fam : FamilyEntry)
    (v : Value)
    (hfam : assocGet reg tn = some fam)
    (hinst : isinstanceOf v tn = true) :
    (∀ pre : Option String,
      get_family reg cli (fuel + 1) tn v pre = GetOut.mk (Except.ok v) v [])
    ∧ ∀ (pre : Option String) (w : Value),
        (get_family reg cli (fuel + 1) tn v pre).res = Except.ok w →
        (get_family reg cli (fuel + 1) tn w pre).res
          = (get_family reg cli (fuel + 1) tn v pre).res := by
  have hmain : ∀ pre : Option String,
      get_family reg cli (fuel + 1) tn v pre = GetOut.mk (Except.ok v) v [] := by
    intro pre
    cases v with
    | vObj t tg fl => simp [get_family, hfam, hinst]
    | vNone => simp [isinstanceOf] at hinst
    | vInt n => simp [isinstanceOf] at hinst
    | vFloat a b => simp [isinstanceOf] at hinst
    | vBool b => simp [isinstanceOf] at hinst
    | vStr s => simp [isinstanceOf] at hinst
    | vList l => simp [isinstanceOf] at hinst
    | vDict d => simp [isinstanceOf] at hinst
  refine ⟨hmain, ?_⟩
  intro pre w hw
  rw [hmain pre] at hw
  have hw2 : Except.ok v = Except.ok w := hw
  injection hw2 with hv
  rw [← hv, hmain pre]

def c6Ctor : Ctor := Ctor.mk "famC6" "c" []

def c6Reg : Registry := Registry.register [] "c" c6Ctor "famC6"

/-- Witness for C6: a concrete instance of a registered family passes
through unchanged. -/
theorem c6_instance_passthrough_idempotence_witness :
    get_family c6Reg [] 1 "famC6" (Value.vObj "famC6" "c" []) none
      = GetOut.mk (Except.ok (Value.vObj "famC6" "c" []))
          (Value.vObj "famC6" "c" []) [] :=
  (c6_instance_passthrough_idempotence c6Reg [] 0 "famC6"
    (FamilyEntry.mk c6Ctor [("c", c6Ctor)]) (Value.vObj "famC6" "c" [])
    rfl rfl).1 none

/-- C3: when a declared (non-self) parameter `x` of the looked-up
constructor is supplied both in the fragment's kwargs and as a CLI flag
scoped by the prefix, the merge puts the parsed CLI value at `x` (CLI wins
over the configuration value), and — provided `x` is not a Registrable
parameter of the engine's signature, so the construction pass does not
replace it further — the constructor is finally invoked with exactly that
CLI-derived value at `x`. -/
theorem c3_cli_override_precedence
    (reg : Registry) (cli : CLI) (fuel : Nat) (tn : String) (fam : FamilyEntry)
    (entries : List (String × Value)) (n : String) (kwargs0 : List (String × Value))
    (object_class : Ctor) (x rawv : String) (pre : Option String)
    (hfam : assocGet reg tn = some fam)
    (hname : assocGet entries "name" = some (Value.vStr n))
    (hkw : assocGet entries "kwargs" = some (Value.vDict kwargs0))
    (hvar : assocGet fam.variants n = some object_class)
    (hdecl : x ∈ (object_class.params.filter (fun p => p.name != "self")).map Param.name)
    (hsup : cliLookup cli (prefixDot pre ++ x) = some rawv)
    (hnotfam : ∀ p ∈ fam.closureCtor.params, p.name = x → ∀ g, p.ann ≠ Ann.registrable g) :
    assocGet (assocUpdate kwargs0 (cliOverrides cli object_class pre)) x
        = some (yaml_safe_load rawv)
    ∧ ∀ (tn2 tag2 : String) (fields : List (String × Value)),
        (get_family reg cli (fuel + 1) tn (Value.vDict entries) pre).res
          = Except.ok (Value.vObj tn2 tag2 fields) →
        assocGet fields x = some (yaml_safe_load rawv) := by
  have hmem : (x, yaml_safe_load rawv) ∈ cliOverrides cli object_class pre := by
    rw [List.mem_map] at hdecl
    obtain ⟨p, hp, hpx⟩ := hdecl
    unfold cliOverrides
    rw [List.mem_filterMap]
    refine ⟨p, hp, ?_⟩
    rw [hpx, hsup]
    rfl
  have hall : ∀ w, (x, w) ∈ cliOverrides cli object_class pre →
      w = yaml_safe_load rawv := by
    intro w hw
    unfold cliOverrides at hw
    rw [List.mem_filterMap] at hw
    obtain ⟨p, hp, hf⟩ := hw
    cases hl : cliLookup cli (prefixDot pre ++ p.name) with
    | none => rw [hl] at hf; cases hf
    | some raw =>
      rw [hl] at hf
      have hpair := Option.some.inj hf
      have h1 : p.name = x := congrArg Prod.fst hpair
      have h2 : yaml_safe_load raw = w := congrArg Prod.snd hpair
      rw [h1] at hl
      have h3 : rawv = raw := Option.some.inj (hsup.symm.trans hl)
      rw [← h2, h3]
  have hupd : assocGet (assocUpdate kwargs0 (cliOverrides cli object_class pre)) x
      = some (yaml_safe_load rawv) :=
    assocGet_assocUpdate_const _ _ _ _ hmem hall
  refine ⟨hupd, ?_⟩
  intro tn2 tag2 fields hres
  simp [get_family, hfam, hname, hkw, hvar, get_callable_parsed_args_eq,
    isinstanceOf] at hres
  cases hco : (construct_objects (fun g v pfxStr => get_family reg cli fuel g v (some pfxStr))
      fam.closureCtor.params (assocUpdate kwargs0 (cliOverrides cli object_class pre)) pre).err with
  | some e => rw [hco] at hres; cases hres
  | none =>
    rw [hco] at hres
    have hio : Except.ok (Value.vObj object_class.typeName object_class.tag
        (construct_objects (fun g v pfxStr => get_family reg cli fuel g v (some pfxStr))
          fam.closureCtor.params (assocUpdate kwargs0 (cliOverrides cli object_class pre)) pre).config)
        = Except.ok (Value.vObj tn2 tag2 fields) := hres
    have hio2 := Except.ok.inj hio
    injection hio2 with ht1 ht2 ht3
    rw [← ht3]
    show assocGet (construct_objects (fun g v pfxStr => get_family reg cli fuel g v (some pfxStr))
      fam.closureCtor.params (assocUpdate kwargs0 (cliOverrides cli object_class pre)) pre).config x
      = some (yaml_safe_load rawv)
    unfold construct_objects
    rw [constructLoop_preserves _ _ _ _ _ hnotfam]
    exact hupd

def c3Ctor : Ctor := Ctor.mk "alg" "c1" [Param.mk "x" (Ann.pyType PyType.pyInt)]

def c3Reg : Registry := Registry.register [] "c1" c3Ctor "alg"

/-- Witness for C3: with fragment kwargs `x = 1` and override `--p.x 2` at
prefix "p", the constructor receives `x = 2` (the yaml parse of the flag
text "2"). -/
theorem c3_cli_override_precedence_witness :
    assocGet [("x", Value.vInt 2)] "x" = some (yaml_safe_load "2") := by
  have h := c3_cli_override_precedence c3Reg [("p.x", "2")] 0 "alg"
    (FamilyEntry.mk c3Ctor [("c1", c3Ctor)])
    [("name", Value.vStr "c1"), ("kwargs", Value.vDict [("x", Value.vInt 1)])]
    "c1" [("x", Value.vInt 1)] c3Ctor "x" "2" (some "p")
    rfl rfl rfl rfl (by simp [c3Ctor]) rfl
    (by
      intro p hp hpx g
      simp [c3Ctor] at hp
      rw [hp]
      intro hcontra
      cases hcontra)
  exact h.2 "alg" "c1" [("x", Value.vInt 2)] rfl

/-- The final kwargs dict a resolution hands the looked-up constructor:
the fragment's kwargs with CLI overrides merged in, then the construction
pass of the closure constructor's parameters applied. -/
def finalKwargs (reg : Registry) (cli : CLI) (fuel : Nat) (fam : FamilyEntry)
    (object_class : Ctor) (kwargs0 : List (String × Value)) (pre : Option String) :
    List (String × Value) :=
  (construct_objects (fun g v pfxStr => get_family reg cli fuel g v (some pfxStr))
    fam.closureCtor.params (assocUpdate kwargs0 (cliOverrides cli object_class pre)) pre).config

/-- C10: once the variant is found, the getter mutates the caller's
fragment in place: the fragment the caller holds afterwards carries the
final kwargs dict — CLI overrides written in and construction-pass
replacements applied — in its "kwargs" slot, and whenever that final dict
differs from the one passed in, the caller's fragment no longer equals
what it passed in. -/
theorem c10_fragment_mutated_in_place
    (reg : Registry) (cli : CLI) (fuel : Nat) (tn : String) (fam : FamilyEntry)
    (entries : List (String × Value)) (n : String) (kwargs0 : List (String × Value))
    (object_class : Ctor) (pre : Option String)
    (hfam : assocGet reg tn = some fam)
    (hname : assocGet entries "name" = some (Value.vStr n))
    (hkw : assocGet entries "kwargs" = some (Value.vDict kwargs0))
    (hvar : assocGet fam.variants n = some object_class)
    (hchanged : finalKwargs reg cli fuel fam object_class kwargs0 pre ≠ kwargs0) :
    (get_family reg cli (fuel + 1) tn (Value.vDict entries) pre).frag
        = Value.vDict (assocSet entries "kwargs"
            (Value.vDict (finalKwargs reg cli fuel fam object_class kwargs0 pre)))
    ∧ (get_family reg cli (fuel + 1) tn (Value.vDict entries) pre).frag
        ≠ Value.vDict entries := by
  have hfrag : (get_family reg cli (fuel + 1) tn (Value.vDict entries) pre).frag
      = Value.vDict (assocSet entries "kwargs"
          (Value.vDict (finalKwargs reg cli fuel fam object_class kwargs0 pre))) := by
    unfold finalKwargs
    simp [get_family, hfam, hname, hkw, hvar, get_callable_parsed_args_eq,
      isinstanceOf]
    cases (construct_objects (fun g v pfxStr => get_family reg cli fuel g v (some pfxStr))
      fam.closureCtor.params (assocUpdate kwargs0 (cliOverrides cli object_class pre)) pre).err
      <;> rfl
  refine ⟨hfrag, ?_⟩
  rw [hfrag]
  intro heq
  injection heq with hset
  have h1 := congrArg (fun d => assocGet d "kwargs") hset
  simp only [] at h1
  rw [assocGet_assocSet_self, hkw] at h1
  have h2 := Option.some.inj h1
  injection h2 with h3
  exact hchanged h3

def c10Ctor : Ctor := Ctor.mk "env" "e1" [Param.mk "x" (Ann.pyType PyType.pyInt)]

def c10Reg : Registry := Registry.register [] "e1" c10Ctor "env"

def c10Entries : List (String × Value) :=
  [("name", Value.vStr "e1"), ("kwargs", Value.vDict [("x", Value.vInt 1)])]

/-- Witness for C10: with kwargs `x = 1` and override `--x 2`, after the
call the fragment's kwargs is `x = 2`, no longer what the caller passed. -/
theorem c10_fragment_mutated_in_place_witness :
    (get_family c10Reg [("x", "2")] 1 "env" (Value.vDict c10Entries) none).frag
        = Value.vDict (assocSet c10Entries "kwargs"
            (Value.vDict (finalKwargs c10Reg [("x", "2")] 0
              (FamilyEntry.mk c10Ctor [("e1", c10Ctor)]) c10Ctor
              [("x", Value.vInt 1)] none)))
    ∧ (get_family c10Reg [("x", "2")] 1 "env" (Value.vDict c10Entries) none).frag
        ≠ Value.vDict c10Entries :=
  c10_fragment_mutated_in_place c10Reg [("x", "2")] 0 "env"
    (FamilyEntry.mk c10Ctor [("e1", c10Ctor)]) c10Entries "e1"
    [("x", Value.vInt 1)] c10Ctor none rfl rfl rfl rfl
    (by
      rw [show finalKwargs c10Reg [("x", "2")] 0
          (FamilyEntry.mk c10Ctor [("e1", c10Ctor)]) c10Ctor
          [("x", Value.vInt 1)] none = [("x", Value.vInt 2)] from rfl]
      intro h
      injection h with h1 h2
      injection h1 with h3 h4
      injection h4 with h5
      exact absurd h5 (by decide))

end RLHive
